import Mathlib

/-!
Shallow embedding of the company-scraper extraction pipeline (src/app.js) and
proofs about it.

The JavaScript core is `fetchCompanyLogo` together with its helpers
`scoreImageCandidate`, `downloadAndValidateImage` and `extractSocialProfiles`.
External effects (node-fetch, the WHATWG URL parser, cheerio) are modelled as an
explicit environment `Env` of pure functions; a `none`/`Except.error` value
models a rejected promise or a thrown exception.  JavaScript strings are Lean
`String`s; the JS string primitives used by app.js (`trim`, `toLowerCase`,
`startsWith`, `endsWith`, `includes`) are modelled by structurally recursive
functions over the character list so that every definition evaluates inside the
kernel.
-/

namespace CompanyScraper

/-! ### String primitives (models of the JS string methods used in app.js) -/

/-- JS `a.startsWith(b)` on character lists: `charsStartWith needle hay` is true
when `needle` is an initial segment of `hay`. -/
def charsStartWith : List Char → List Char → Bool
  | [], _ => true
  | _ :: _, [] => false
  | a :: as, b :: bs => a == b && charsStartWith as bs

/-- JS `hay.includes(needle)` on character lists: some tail of `hay` starts with
`needle`. -/
def charsContain : List Char → List Char → Bool
  | [], needle => needle.isEmpty
  | hay@(_ :: rest), needle => charsStartWith needle hay || charsContain rest needle

/-- JS `String.prototype.includes` (substring test). -/
def strContains (hay needle : String) : Bool :=
  charsContain hay.data needle.data

/-- JS `String.prototype.startsWith`. -/
def strStartsWith (s pre : String) : Bool :=
  charsStartWith pre.data s.data

/-- JS `String.prototype.endsWith`. -/
def strEndsWith (s post : String) : Bool :=
  charsStartWith post.data.reverse s.data.reverse

/-- ASCII model of JS `String.prototype.toLowerCase` on a character. -/
def charToLower (c : Char) : Char :=
  if 'A' ≤ c && c ≤ 'Z' then Char.ofNat (c.toNat + 32) else c

/-- ASCII model of JS `String.prototype.toLowerCase`. -/
def strToLower (s : String) : String :=
  ⟨s.data.map charToLower⟩

/-- Whitespace characters removed by JS `String.prototype.trim`. -/
def isWhite (c : Char) : Bool :=
  c == ' ' || c == '\t' || c == '\n' || c == '\r'

/-- Model of JS `String.prototype.trim`. -/
def strTrim (s : String) : String :=
  ⟨((s.data.dropWhile isWhite).reverse.dropWhile isWhite).reverse⟩

/-! ### Data model -/

/-- Raw bytes: a node `Buffer` is a list of byte values. -/
abbrev Buffer := List Nat

/-- app.js line 6: `const MAX_LOGO_BYTES = 2 * 1024 * 1024`. -/
def MAX_LOGO_BYTES : Nat := 2 * 1024 * 1024

/-- The nine social platforms of the `SOCIAL_DOMAINS` table (app.js lines 10-20),
in `Object.entries` (insertion) order. -/
inductive Platform where
  | facebook
  | linkedin
  | twitter
  | youtube
  | discord
  | instagram
  | pinterest
  | snapchat
  | tiktok
deriving DecidableEq, Repr

/-- app.js lines 10-20: the fixed platform → domain-list table. -/
def SOCIAL_DOMAINS : Platform → List String
  | .facebook => ["facebook.com"]
  | .linkedin => ["linkedin.com"]
  | .twitter => ["twitter.com", "x.com"]
  | .youtube => ["youtube.com", "youtu.be"]
  | .discord => ["discord.com"]
  | .instagram => ["instagram.com"]
  | .pinterest => ["pinterest.com"]
  | .snapchat => ["snapchat.com"]
  | .tiktok => ["tiktok.com"]

/-- The socialProfiles record: one nullable URL string per platform. -/
structure SocialProfiles where
  facebook : Option String
  linkedin : Option String
  twitter : Option String
  youtube : Option String
  discord : Option String
  instagram : Option String
  pinterest : Option String
  snapchat : Option String
  tiktok : Option String
deriving DecidableEq, Repr

/-- app.js lines 22-34: `emptySocialProfiles()`. -/
def emptySocialProfiles : SocialProfiles :=
  { facebook := none, linkedin := none, twitter := none, youtube := none,
    discord := none, instagram := none, pinterest := none, snapchat := none,
    tiktok := none }

/-- Field projection `found[key]` for a platform key. -/
def getProfile (s : SocialProfiles) : Platform → Option String
  | .facebook => s.facebook
  | .linkedin => s.linkedin
  | .twitter => s.twitter
  | .youtube => s.youtube
  | .discord => s.discord
  | .instagram => s.instagram
  | .pinterest => s.pinterest
  | .snapchat => s.snapchat
  | .tiktok => s.tiktok

/-- Observable part of a WHATWG `URL` object as used by app.js: its canonical
serialisation (`toString()`) and its `hostname`. -/
structure URLRec where
  str : String
  hostname : String
deriving DecidableEq, Repr

/-- Observable part of a node-fetch response as used by app.js: `ok`, the
`content-type` header (`none` models a missing header, i.e. JS `null`),
the body bytes (`res.buffer()`) and the body text (`res.text()`). -/
structure HttpResponse where
  ok : Bool
  contentType : Option String
  body : Buffer
  text : String
deriving DecidableEq, Repr

/-- An `<img>` element: the four attributes read by the candidate scan
(`none` models an absent attribute, i.e. `$el.attr(...)` returning undefined). -/
structure ImgEl where
  src : Option String
  alt : Option String
  id : Option String
  cls : Option String
deriving DecidableEq, Repr

/-- The parsed page, as observed by app.js: the `$(img)` elements and the
`href` attributes of the `$(a[href])` elements, both in document order. -/
structure Doc where
  imgs : List ImgEl
  anchors : List String
deriving DecidableEq, Repr

/-- The external world: node-fetch (`none` models a rejected promise),
cheerio (lenient, never throws), and the WHATWG URL parser, both one-argument
(`new URL(s)`) and with a base (`new URL(s, base)`); `none` models a thrown
`TypeError: Invalid URL`. -/
structure Env where
  fetch : String → Option HttpResponse
  parseHTML : String → Doc
  parseURL : String → Option URLRec
  resolve : String → String → Option URLRec

/-- The logo payload built at app.js lines 237-242. -/
structure Logo where
  url : String
  size : Nat
  contentType : String
  data : Buffer
deriving DecidableEq, Repr

/-- Shape of the objects returned by `downloadAndValidateImage`
(app.js lines 205-247).  JS fields that are absent on some return paths
(hence undefined, falsy) are modelled by the defaults `false`/`none`. -/
structure LogoCheck where
  ok : Bool
  tooLarge : Bool := false
  logo : Option Logo := none
  reason : Option String := none
  size : Option Nat := none
deriving DecidableEq, Repr

/-- The result object of `fetchCompanyLogo`: absent `logo`/`socialProfiles`
fields are modelled by `none` defaults. -/
structure Result where
  success : Bool
  message : String
  logo : Option Logo := none
  socialProfiles : Option SocialProfiles := none
deriving DecidableEq, Repr

/-- A candidate logo: resolved absolute URL and heuristic score
(app.js line 124). -/
structure Candidate where
  url : String
  score : Nat
deriving DecidableEq, Repr

/-! ### Helpers translated from app.js -/

/-- app.js lines 190-203: `scoreImageCandidate({src, alt, id, cls})`.  The
caller passes already-lowercased attribute values.  The regex
`/\/logo\./.test(src)` is an unanchored search, i.e. a substring test for
`/logo.`. -/
def scoreImageCandidate (src alt id cls : String) : Nat :=
  let haystack := src ++ " " ++ alt ++ " " ++ id ++ " " ++ cls
  (if strContains haystack "logo" then 10 else 0) +
  (if strContains haystack "brand" then 4 else 0) +
  (if strContains haystack "header" || strContains haystack "navbar" then 2 else 0) +
  (if strContains haystack "site" || strContains haystack "main" then 1 else 0) +
  (if strContains src "/logo." then 5 else 0)

/-- Boundary part of the regex `/\.(jpe?g|png)(\?|#|$)/`: the matched extension
must be followed by `?`, `#`, or the end of the string. -/
def extBoundary : List Char → Bool
  | [] => true
  | c :: _ => c == '?' || c == '#'

/-- Whether the regex `/\.(jpe?g|png)(\?|#|$)/` matches at the start of `l`. -/
def extHere (l : List Char) : Bool :=
  (charsStartWith ".jpg".data l && extBoundary (l.drop 4)) ||
  (charsStartWith ".jpeg".data l && extBoundary (l.drop 5)) ||
  (charsStartWith ".png".data l && extBoundary (l.drop 4))

/-- Unanchored search for the extension regex. -/
def extSearch : List Char → Bool
  | [] => extHere []
  | l@(_ :: rest) => extHere l || extSearch rest

/-- app.js line 115: `/\.(jpe?g|png)(\?|#|$)/.test(lowerSrc)`. -/
def extMatch (s : String) : Bool :=
  extSearch s.data

/-- app.js lines 276-278: `hostname === domain || hostname.endsWith of dot-domain`,
tested over the domain list of a platform with `Array.prototype.some`. -/
def matchesHost (hostname : String) (domains : List String) : Bool :=
  domains.any fun domain => hostname == domain || strEndsWith hostname ("." ++ domain)

/-- One platform entry of the loop at app.js lines 273-283: if `found[key]` is
set, keep it (`continue`); otherwise set it to the absolute URL exactly when the
hostname matches the domain list. -/
def updField (cur : Option String) (hostname : String) (domains : List String)
    (absolute : String) : Option String :=
  if cur.isNone && matchesHost hostname domains then some absolute else cur

/-- app.js lines 255-284: the body of the anchor-iteration callback.  The
`Object.entries(SOCIAL_DOMAINS)` loop touches each key once and reads only that
own `found[key]` of that key, so the nine updates are independent. -/
def socialStep (env : Env) (base : URLRec) (found : SocialProfiles)
    (href : String) : SocialProfiles :=
  if href = "" then found
  else
    match env.resolve href base.str with
    | none => found
    | some absRec =>
      let absolute := absRec.str
      match env.parseURL absolute with
      | none => found
      | some u =>
        let hostname := strToLower u.hostname
        { facebook := updField found.facebook hostname (SOCIAL_DOMAINS .facebook) absolute
          linkedin := updField found.linkedin hostname (SOCIAL_DOMAINS .linkedin) absolute
          twitter := updField found.twitter hostname (SOCIAL_DOMAINS .twitter) absolute
          youtube := updField found.youtube hostname (SOCIAL_DOMAINS .youtube) absolute
          discord := updField found.discord hostname (SOCIAL_DOMAINS .discord) absolute
          instagram := updField found.instagram hostname (SOCIAL_DOMAINS .instagram) absolute
          pinterest := updField found.pinterest hostname (SOCIAL_DOMAINS .pinterest) absolute
          snapchat := updField found.snapchat hostname (SOCIAL_DOMAINS .snapchat) absolute
          tiktok := updField found.tiktok hostname (SOCIAL_DOMAINS .tiktok) absolute }

/-- app.js lines 252-287: `extractSocialProfiles($, baseUrl)`, a fold of the
per-anchor step over the anchors in document order, starting from the empty
record. -/
def extractSocialProfiles (env : Env) (base : URLRec) (anchors : List String) :
    SocialProfiles :=
  anchors.foldl (socialStep env base) emptySocialProfiles

/-- app.js lines 205-247: `downloadAndValidateImage(imageUrl)`.  A rejected
fetch promise (the catch at line 244) is `env.fetch = none`. -/
def downloadAndValidateImage (env : Env) (imageUrl : String) : LogoCheck :=
  match env.fetch imageUrl with
  | none => { ok := false, reason := some "download_error" }
  | some res =>
    if !res.ok then
      { ok := false, reason := some "fetch_failed" }
    else
      let contentType := strToLower (res.contentType.getD "")
      let isJpeg := strStartsWith contentType "image/jpeg" ||
                    strStartsWith contentType "image/jpg"
      let isPng := strStartsWith contentType "image/png"
      if !isJpeg && !isPng then
        { ok := false, reason := some "unsupported_type" }
      else
        let size := res.body.length
        if size ≥ MAX_LOGO_BYTES then
          { ok := false, tooLarge := true, reason := some "too_large", size := some size }
        else
          { ok := true, tooLarge := false,
            logo := some { url := imageUrl, size := size, contentType := contentType,
                           data := res.body } }

/-- app.js lines 107-125: the image-iteration callback, over the image elements
in document order.  The call `new URL(src, parsedUrl)` at line 123 is not
wrapped in a local try, so a resolution failure throws out of the whole scan
(`Except.error`), to be caught only by the surrounding catch at line 176. -/
def scanCandidates (env : Env) (parsedUrl : URLRec) :
    List ImgEl → Except Unit (List Candidate)
  | [] => .ok []
  | el :: rest =>
    let src := strTrim (el.src.getD "")
    if src = "" || strStartsWith src "data:" then scanCandidates env parsedUrl rest
    else
      let lowerSrc := strToLower src
      if !extMatch lowerSrc then scanCandidates env parsedUrl rest
      else
        let alt := strToLower (el.alt.getD "")
        let idAttr := strToLower (el.id.getD "")
        let cls := strToLower (el.cls.getD "")
        let score := scoreImageCandidate lowerSrc alt idAttr cls
        match env.resolve src parsedUrl.str with
        | none => .error ()
        | some absRec =>
          match scanCandidates env parsedUrl rest with
          | .error e => .error e
          | .ok cs => .ok ({ url := absRec.str, score := score } :: cs)

/-- app.js line 135: `candidates.sort((a, b) => b.score - a.score)`.
`Array.prototype.sort` is a stable sort; this comparator orders by descending
score, modelled by a stable merge sort with `le a b` exactly when
`b.score ≤ a.score`. -/
def sortCandidates (l : List Candidate) : List Candidate :=
  l.mergeSort fun a b => decide (b.score ≤ a.score)

/-- app.js lines 137-173: the `for (const candidate of candidates)` loop over
the sorted candidates, including the `chosenResult === null` fallthrough at
lines 165-173. -/
def validateLoop (env : Env) (socialProfiles : SocialProfiles) :
    List Candidate → Result
  | [] =>
    { success := false, message := "could not identify logo",
      socialProfiles := some socialProfiles }
  | candidate :: rest =>
    let logoCheck := downloadAndValidateImage env candidate.url
    if logoCheck.ok && !logoCheck.tooLarge && logoCheck.logo.isSome then
      { success := true, message := "OK", logo := logoCheck.logo,
        socialProfiles := some socialProfiles }
    else if logoCheck.tooLarge then
      { success := false, message := "logo greater than image limit",
        socialProfiles := some socialProfiles }
    else
      validateLoop env socialProfiles rest

/-- app.js lines 90-175: the body of the try block, after URL normalisation.
`Except.error` models an exception propagating to the catch at line 176
(a rejected page fetch, or a throwing `new URL(src, parsedUrl)` inside the
image scan). -/
def pipelineBody (env : Env) (parsedUrl : URLRec) : Except Unit Result :=
  let canonicalUrl := parsedUrl.str
  match env.fetch canonicalUrl with
  | none => .error ()
  | some pageRes =>
    if !pageRes.ok then
      .ok { success := false, message := "could not identify logo",
            socialProfiles := some emptySocialProfiles }
    else
      let doc := env.parseHTML pageRes.text
      let socialProfiles := extractSocialProfiles env parsedUrl doc.anchors
      match scanCandidates env parsedUrl doc.imgs with
      | .error _ => .error ()
      | .ok candidates =>
        if candidates.isEmpty then
          .ok { success := false, message := "could not identify logo",
                socialProfiles := some socialProfiles }
        else
          .ok (validateLoop env socialProfiles (sortCandidates candidates))

/-- app.js lines 65-186: `fetchCompanyLogo(targetUrl)`. -/
def fetchCompanyLogo (env : Env) (targetUrl : String) : Result :=
  if strTrim targetUrl = "" then
    { success := false, message := "False" }
  else
    match env.parseURL targetUrl with
    | none => { success := false, message := "Malformed URL" }
    | some parsedUrl =>
      match pipelineBody env parsedUrl with
      | .ok r => r
      | .error _ =>
        { success := false, message := "could not identify logo",
          socialProfiles := some emptySocialProfiles }

/-- The fixed failure message tokens of the result contract (spec section 6). -/
def messageTokens : List String :=
  ["False", "Malformed URL", "could not identify logo",
   "logo greater than image limit"]

/-- A result is well formed when success carries `OK`, a logo and social
profiles, and failure carries no logo and one of the fixed failure messages. -/
def wellFormedResult (r : Result) : Prop :=
  (r.success = true →
     r.message = "OK" ∧ r.logo.isSome = true ∧ r.socialProfiles.isSome = true) ∧
  (r.success = false → r.logo = none ∧ r.message ∈ messageTokens)

end CompanyScraper
namespace CompanyScraper

/-! ### Helper lemmas -/

theorem validateLoop_socialProfiles (env : Env) (s : SocialProfiles) :
    ∀ l, (validateLoop env s l).socialProfiles = some s
  | [] => rfl
  | c :: rest => by
    simp only [validateLoop]
    split
    · rfl
    · split
      · rfl
      · exact validateLoop_socialProfiles env s rest

theorem validateLoop_wf (env : Env) (s : SocialProfiles) :
    ∀ l, wellFormedResult (validateLoop env s l)
  | [] => by simp [validateLoop, wellFormedResult, messageTokens]
  | c :: rest => by
    simp only [validateLoop]
    split
    · rename_i h
      simp only [Bool.and_eq_true] at h
      refine ⟨fun _ => ⟨rfl, h.2, rfl⟩, fun hf => by simp at hf⟩
    · split
      · simp [wellFormedResult, messageTokens]
      · exact validateLoop_wf env s rest

theorem pipelineBody_ok {env : Env} {u : URLRec} {r : Result}
    (h : pipelineBody env u = .ok r) :
    wellFormedResult r ∧ r.socialProfiles.isSome = true := by
  simp only [pipelineBody] at h
  cases hf : env.fetch u.str with
  | none => rw [hf] at h; exact absurd h (by simp)
  | some pageRes =>
    rw [hf] at h
    by_cases hok : pageRes.ok
    · simp only [hok, Bool.not_true, Bool.false_eq_true, if_false, if_neg] at h
      cases hs : scanCandidates env u (env.parseHTML pageRes.text).imgs with
      | error e => rw [hs] at h; exact absurd h (by simp)
      | ok candidates =>
        rw [hs] at h
        by_cases he : candidates.isEmpty
        · simp only [he, if_true, Except.ok.injEq] at h
          subst h
          exact ⟨by simp [wellFormedResult, messageTokens], rfl⟩
        · simp [he] at h
          subst h
          exact ⟨validateLoop_wf env _ _, by rw [validateLoop_socialProfiles]; rfl⟩
    · simp only [Bool.not_eq_true] at hok
      simp only [hok, Bool.not_false, if_true, Except.ok.injEq] at h
      subst h
      exact ⟨by simp [wellFormedResult, messageTokens], rfl⟩

end CompanyScraper

namespace CompanyScraper

/-! ### C1 -/

/-- C1: in the validation loop over the score-sorted candidate sequence, after
any run of candidates rejected for non-size reasons, a candidate whose
validation is rejected as too large terminates the pipeline immediately with
the message `logo greater than image limit`, whatever candidates follow; and a
candidate rejected for a non-size reason (fetch_failed, unsupported_type,
download_error, all of which have `ok = false` and `tooLarge = false`) makes
the iteration continue with the next candidate. -/
theorem C1_too_large_short_circuits (env : Env) (socials : SocialProfiles)
    (pre post : List Candidate) (c : Candidate)
    (hpre : ∀ x ∈ pre, (downloadAndValidateImage env x.url).ok = false ∧
      (downloadAndValidateImage env x.url).tooLarge = false)
    (hc : (downloadAndValidateImage env c.url).tooLarge = true) :
    validateLoop env socials (pre ++ c :: post) =
      { success := false, message := "logo greater than image limit",
        socialProfiles := some socials } ∧
    ∀ (x : Candidate) (rest : List Candidate),
      (downloadAndValidateImage env x.url).ok = false →
      (downloadAndValidateImage env x.url).tooLarge = false →
      validateLoop env socials (x :: rest) = validateLoop env socials rest := by
  have hskip : ∀ (x : Candidate) (rest : List Candidate),
      (downloadAndValidateImage env x.url).ok = false →
      (downloadAndValidateImage env x.url).tooLarge = false →
      validateLoop env socials (x :: rest) = validateLoop env socials rest := by
    intro x rest h1 h2
    simp [validateLoop, h1, h2]
  refine ⟨?_, hskip⟩
  induction pre with
  | nil => simp [validateLoop, hc]
  | cons x xs ih =>
    have hx := hpre x (List.mem_cons_self x xs)
    rw [List.cons_append, hskip x (xs ++ c :: post) hx.1 hx.2]
    exact ih fun y hy => hpre y (List.mem_cons_of_mem x hy)

/-- Page response whose body is exactly the 2 MiB limit. -/
def resBig : HttpResponse :=
  { ok := true, contentType := some "image/png",
    body := List.replicate MAX_LOGO_BYTES 0, text := "" }

/-- Concrete environment with a rejected candidate, an oversized candidate and
an acceptable candidate. -/
def envC1 : Env :=
  { fetch := fun u =>
      if u = "https://s.example/pre.png" then
        some { ok := false, contentType := none, body := [], text := "" }
      else if u = "https://s.example/big.png" then some resBig
      else if u = "https://s.example/good.png" then
        some { ok := true, contentType := some "image/png", body := [1], text := "" }
      else none
    parseHTML := fun _ => { imgs := [], anchors := [] }
    parseURL := fun _ => none
    resolve := fun _ _ => none }

theorem envC1_big :
    downloadAndValidateImage envC1 "https://s.example/big.png" =
      { ok := false, tooLarge := true, reason := some "too_large",
        size := some MAX_LOGO_BYTES } := by
  have h1 : envC1.fetch "https://s.example/big.png" = some resBig := rfl
  have hct : strToLower "image/png" = "image/png" := by decide
  have hs1 : strStartsWith "image/png" "image/jpeg" = false := by decide
  have hs2 : strStartsWith "image/png" "image/jpg" = false := by decide
  have hs3 : strStartsWith "image/png" "image/png" = true := by decide
  simp [downloadAndValidateImage, h1, resBig, hct, hs1, hs2, hs3,
    List.length_replicate]

theorem C1_witness :
    validateLoop envC1 emptySocialProfiles
      ([{ url := "https://s.example/pre.png", score := 12 }] ++
        { url := "https://s.example/big.png", score := 15 } ::
        [{ url := "https://s.example/good.png", score := 10 }]) =
      { success := false, message := "logo greater than image limit",
        socialProfiles := some emptySocialProfiles } :=
  (C1_too_large_short_circuits envC1 emptySocialProfiles _ _ _
    (by
      intro x hx
      simp only [List.mem_singleton] at hx
      subst hx
      exact ⟨by decide, by decide⟩)
    (by rw [envC1_big])).1

/-! ### C2 -/

/-- C2: for every environment and every input string, `fetchCompanyLogo`
returns a well-formed result (it is a total function, so no exception reaches
the caller), and whenever the pipeline body after successful normalisation
raises an exception, the result is the catch-all failure
`could not identify logo` with all-null social profiles. -/
theorem C2_result_contract (env : Env) (targetUrl : String) :
    wellFormedResult (fetchCompanyLogo env targetUrl) ∧
    (∀ parsedUrl, strTrim targetUrl ≠ "" →
      env.parseURL targetUrl = some parsedUrl →
      pipelineBody env parsedUrl = .error () →
      fetchCompanyLogo env targetUrl =
        { success := false, message := "could not identify logo",
          socialProfiles := some emptySocialProfiles }) := by
  constructor
  · by_cases ht : strTrim targetUrl = ""
    · simp [fetchCompanyLogo, ht, wellFormedResult, messageTokens]
    · cases hp : env.parseURL targetUrl with
      | none => simp [fetchCompanyLogo, ht, hp, wellFormedResult, messageTokens]
      | some parsedUrl =>
        cases hb : pipelineBody env parsedUrl with
        | ok r =>
          have hr : fetchCompanyLogo env targetUrl = r := by
            simp [fetchCompanyLogo, ht, hp, hb]
          rw [hr]
          exact (pipelineBody_ok hb).1
        | error e =>
          simp [fetchCompanyLogo, ht, hp, hb, wellFormedResult, messageTokens]
  · intro parsedUrl ht hp hb
    simp [fetchCompanyLogo, ht, hp, hb]

/-- Environment in which every fetch fails (a network error on the page
fetch). -/
def envErr : Env :=
  { fetch := fun _ => none
    parseHTML := fun _ => { imgs := [], anchors := [] }
    parseURL := fun _ => some { str := "https://e.com/", hostname := "e.com" }
    resolve := fun _ _ => none }

theorem C2_witness :
    fetchCompanyLogo envErr "https://e.com" =
      { success := false, message := "could not identify logo",
        socialProfiles := some emptySocialProfiles } :=
  (C2_result_contract envErr "https://e.com").2
    { str := "https://e.com/", hostname := "e.com" } (by decide) rfl rfl

end CompanyScraper

namespace CompanyScraper

/-! ### C3 -/

/-- C3 counterexample: an image whose only contributing attribute is
`class="site-logo-header"` scores 13, not 12 as claimed: the substring `site`
adds 1 on top of 10 for `logo` and 2 for `header`. -/
theorem C3_cex :
    scoreImageCandidate "" "" "" "site-logo-header" = 13 ∧ (13 : Nat) ≠ 12 := by
  decide

/-- C3 amended: the scoring function is deterministic and, as used by the scan
(which lowercases every attribute before scoring), insensitive to attribute
casing; `class="site-logo-header"` with otherwise non-contributing src/alt/id
scores 13 = 10 (logo) + 2 (header) + 1 (site); an src ending in `/logo.png`
scores 10 (logo) + 5 (path segment `/logo.`) = 15 in addition to any other
matching rules (none here). -/
theorem C3_scoring (s a i c s2 a2 i2 c2 : String)
    (hs : strToLower s = strToLower s2) (ha : strToLower a = strToLower a2)
    (hi : strToLower i = strToLower i2) (hc : strToLower c = strToLower c2) :
    scoreImageCandidate (strToLower s) (strToLower a) (strToLower i) (strToLower c) =
      scoreImageCandidate (strToLower s2) (strToLower a2) (strToLower i2) (strToLower c2) ∧
    scoreImageCandidate "" "" "" "site-logo-header" = 13 ∧
    scoreImageCandidate "https://cdn.example.com/img/logo.png" "" "" "" = 15 :=
  ⟨by rw [hs, ha, hi, hc], by decide, by decide⟩

theorem C3_witness :
    (scoreImageCandidate (strToLower "IMG/Logo.PNG") (strToLower "Logo")
        (strToLower "") (strToLower "") =
      scoreImageCandidate (strToLower "img/logo.png") (strToLower "logo")
        (strToLower "") (strToLower "")) ∧
    scoreImageCandidate "" "" "" "site-logo-header" = 13 ∧
    scoreImageCandidate "https://cdn.example.com/img/logo.png" "" "" "" = 15 :=
  C3_scoring "IMG/Logo.PNG" "Logo" "" "" "img/logo.png" "logo" "" ""
    (by decide) (by decide) (by decide) (by decide)

/-! ### C4 -/

/-- An image element the scan skips without scoring: empty or `data:` src, or
an src that fails the jpg/jpeg/png extension pattern. -/
def imgSkipped (el : ImgEl) : Bool :=
  let src := strTrim (el.src.getD "")
  (decide (src = "") || strStartsWith src "data:") || !extMatch (strToLower src)

theorem scanCandidates_skip (env : Env) (u : URLRec) (el : ImgEl)
    (rest : List ImgEl) (h : imgSkipped el = true) :
    scanCandidates env u (el :: rest) = scanCandidates env u rest := by
  simp only [imgSkipped, Bool.or_eq_true, decide_eq_true_eq,
    Bool.not_eq_true'] at h
  simp only [scanCandidates]
  rcases h with (h | h) | h
  · simp [h]
  · simp [h]
  · simp [h]

/-- Base URL of the concrete counterexample page. -/
def urlC4 : URLRec := { str := "https://example.com/", hostname := "example.com" }

/-- Page with an image whose src does not resolve, a second image that would be
a valid candidate, and a facebook anchor. -/
def docC4 : Doc :=
  { imgs := [{ src := some "http://bad host/a.png", alt := none, id := none, cls := none },
             { src := some "good.png", alt := some "logo", id := none, cls := none }],
    anchors := ["https://facebook.com/acme"] }

def envC4 : Env :=
  { fetch := fun u =>
      if u = "https://example.com/" then
        some { ok := true, contentType := none, body := [], text := "page" }
      else if u = "https://example.com/good.png" then
        some { ok := true, contentType := some "image/png", body := [0], text := "" }
      else none
    parseHTML := fun _ => docC4
    parseURL := fun s =>
      if s = "https://example.com/" then some urlC4
      else if s = "https://facebook.com/acme" then
        some { str := "https://facebook.com/acme", hostname := "facebook.com" }
      else none
    resolve := fun href base =>
      if href = "http://bad host/a.png" then none
      else if href = "good.png" ∧ base = "https://example.com/" then
        some { str := "https://example.com/good.png", hostname := "example.com" }
      else if href = "https://facebook.com/acme" then
        some { str := "https://facebook.com/acme", hostname := "facebook.com" }
      else none }

/-- C4 counterexample: on a page whose first image src fails URL resolution,
the whole extraction collapses to the catch-all failure with all-null social
profiles: the second image does not produce a candidate (the scan aborts with
an exception) and the already-computed social profiles (which would contain
the facebook link) are not attached. -/
theorem C4_cex :
    fetchCompanyLogo envC4 "https://example.com/" =
      { success := false, message := "could not identify logo",
        socialProfiles := some emptySocialProfiles } ∧
    extractSocialProfiles envC4 urlC4 docC4.anchors ≠ emptySocialProfiles ∧
    scanCandidates envC4 urlC4 docC4.imgs = .error () :=
  ⟨by decide, by decide, rfl⟩

theorem scanCandidates_error (env : Env) (u : URLRec) (pre post : List ImgEl)
    (el : ImgEl)
    (hpre : ∀ x ∈ pre, imgSkipped x = true)
    (hel : imgSkipped el = false)
    (hres : env.resolve (strTrim (el.src.getD "")) u.str = none) :
    scanCandidates env u (pre ++ el :: post) = .error () := by
  have hhead : scanCandidates env u (el :: post) = .error () := by
    simp only [imgSkipped, Bool.or_eq_false_iff, decide_eq_false_iff_not,
      Bool.not_eq_false] at hel
    simp only [scanCandidates]
    simp [hel.1.1, hel.1.2, hel.2, hres]
  induction pre with
  | nil => exact hhead
  | cons x xs ih =>
    rw [List.cons_append,
      scanCandidates_skip env u x _ (hpre x (List.mem_cons_self x xs))]
    exact ih fun y hy => hpre y (List.mem_cons_of_mem x hy)

/-- C4 amended: during the candidate scan, when an image element that passes
the src filters has an src that fails to resolve against the base URL, the
resulting exception aborts the entire scan: the pipeline returns
Failure(`could not identify logo`) with all-null SocialProfiles, regardless of
the remaining image elements; only elements with empty, `data:` or
non-jpg/jpeg/png srcs are skipped with the scan continuing. -/
theorem C4_resolution_failure_aborts (env : Env) (targetUrl : String)
    (parsedUrl : URLRec) (pageRes : HttpResponse) (pre post : List ImgEl)
    (el : ImgEl)
    (ht : strTrim targetUrl ≠ "")
    (hp : env.parseURL targetUrl = some parsedUrl)
    (hf : env.fetch parsedUrl.str = some pageRes)
    (hok : pageRes.ok = true)
    (himgs : (env.parseHTML pageRes.text).imgs = pre ++ el :: post)
    (hpre : ∀ x ∈ pre, imgSkipped x = true)
    (hel : imgSkipped el = false)
    (hres : env.resolve (strTrim (el.src.getD "")) parsedUrl.str = none) :
    fetchCompanyLogo env targetUrl =
      { success := false, message := "could not identify logo",
        socialProfiles := some emptySocialProfiles } := by
  have hscan : scanCandidates env parsedUrl (pre ++ el :: post) = .error () :=
    scanCandidates_error env parsedUrl pre post el hpre hel hres
  have hbody : pipelineBody env parsedUrl = .error () := by
    simp [pipelineBody, hf, hok, himgs, hscan]
  simp [fetchCompanyLogo, ht, hp, hbody]

theorem C4_witness :
    fetchCompanyLogo envC4 "https://example.com/" =
      { success := false, message := "could not identify logo",
        socialProfiles := some emptySocialProfiles } :=
  C4_resolution_failure_aborts envC4 "https://example.com/" urlC4
    { ok := true, contentType := none, body := [], text := "page" }
    [] [{ src := some "good.png", alt := some "logo", id := none, cls := none }]
    { src := some "http://bad host/a.png", alt := none, id := none, cls := none }
    (by decide) rfl rfl rfl rfl (by simp) (by decide) rfl

end CompanyScraper

namespace CompanyScraper

/-! ### C5 -/

/-- The content-type acceptance test of `downloadAndValidateImage`: the
lowercased content-type header starts with `image/jpeg`, `image/jpg` or
`image/png`. -/
def typeOK (res : HttpResponse) : Bool :=
  let contentType := strToLower (res.contentType.getD "")
  let isJpeg := strStartsWith contentType "image/jpeg" ||
                strStartsWith contentType "image/jpg"
  let isPng := strStartsWith contentType "image/png"
  isJpeg || isPng

theorem download_err {env : Env} {url : String} (h : env.fetch url = none) :
    downloadAndValidateImage env url =
      { ok := false, reason := some "download_error" } := by
  simp [downloadAndValidateImage, h]

theorem download_fetch_failed {env : Env} {url : String} {res : HttpResponse}
    (h : env.fetch url = some res) (hok : res.ok = false) :
    downloadAndValidateImage env url =
      { ok := false, reason := some "fetch_failed" } := by
  simp [downloadAndValidateImage, h, hok]

theorem download_unsupported {env : Env} {url : String} {res : HttpResponse}
    (h : env.fetch url = some res) (hok : res.ok = true)
    (ht : typeOK res = false) :
    downloadAndValidateImage env url =
      { ok := false, reason := some "unsupported_type" } := by
  simp only [typeOK, Bool.or_eq_false_iff] at ht
  simp [downloadAndValidateImage, h, hok, ht.1.1, ht.1.2, ht.2]

theorem download_too_large {env : Env} {url : String} {res : HttpResponse}
    (h : env.fetch url = some res) (hok : res.ok = true)
    (ht : typeOK res = true) (hsz : MAX_LOGO_BYTES ≤ res.body.length) :
    downloadAndValidateImage env url =
      { ok := false, tooLarge := true, reason := some "too_large",
        size := some res.body.length } := by
  simp only [typeOK, Bool.or_eq_true] at ht
  rcases ht with (h1 | h1) | h1 <;>
    simp [downloadAndValidateImage, h, hok, h1, ge_iff_le, hsz]

theorem download_accepted {env : Env} {url : String} {res : HttpResponse}
    (h : env.fetch url = some res) (hok : res.ok = true)
    (ht : typeOK res = true) (hsz : res.body.length < MAX_LOGO_BYTES) :
    downloadAndValidateImage env url =
      { ok := true, tooLarge := false,
        logo := some { url := url, size := res.body.length,
                       contentType := strToLower (res.contentType.getD ""),
                       data := res.body } } := by
  simp only [typeOK, Bool.or_eq_true] at ht
  rcases ht with (h1 | h1) | h1 <;>
    simp [downloadAndValidateImage, h, hok, h1, ge_iff_le, Nat.not_le.mpr hsz]

/-- C5: the downloader/validator accepts exactly when the HTTP response is
successful, the lowercased content-type header starts with one of the three
accepted image prefixes, and the body length is strictly below 2 × 1024 × 1024
bytes; a missing fetch response (transport failure) is `download_error`, a
non-success status is `fetch_failed`, any other content-type is
`unsupported_type` whatever the body bytes, and a body of at least 2 MiB is
`too_large` carrying the observed size. -/
theorem C5_download_validator (env : Env) (imageUrl : String) :
    ((downloadAndValidateImage env imageUrl).ok = true ↔
      ∃ res, env.fetch imageUrl = some res ∧ res.ok = true ∧ typeOK res = true ∧
        res.body.length < MAX_LOGO_BYTES) ∧
    (env.fetch imageUrl = none →
      downloadAndValidateImage env imageUrl =
        { ok := false, reason := some "download_error" }) ∧
    (∀ res, env.fetch imageUrl = some res → res.ok = false →
      downloadAndValidateImage env imageUrl =
        { ok := false, reason := some "fetch_failed" }) ∧
    (∀ res, env.fetch imageUrl = some res → res.ok = true → typeOK res = false →
      downloadAndValidateImage env imageUrl =
        { ok := false, reason := some "unsupported_type" }) ∧
    (∀ res, env.fetch imageUrl = some res → res.ok = true → typeOK res = true →
      MAX_LOGO_BYTES ≤ res.body.length →
      downloadAndValidateImage env imageUrl =
        { ok := false, tooLarge := true, reason := some "too_large",
          size := some res.body.length }) ∧
    (∀ res, env.fetch imageUrl = some res → res.ok = true → typeOK res = true →
      res.body.length < MAX_LOGO_BYTES →
      downloadAndValidateImage env imageUrl =
        { ok := true, tooLarge := false,
          logo := some { url := imageUrl, size := res.body.length,
                         contentType := strToLower (res.contentType.getD ""),
                         data := res.body } }) := by
  refine ⟨?_, fun h => download_err h, fun res h hok => download_fetch_failed h hok,
    fun res h hok ht => download_unsupported h hok ht,
    fun res h hok ht hsz => download_too_large h hok ht hsz,
    fun res h hok ht hsz => download_accepted h hok ht hsz⟩
  constructor
  · intro hok
    cases hf : env.fetch imageUrl with
    | none => rw [download_err hf] at hok; exact absurd hok (by simp)
    | some res =>
      by_cases hro : res.ok = true
      · by_cases htype : typeOK res = true
        · by_cases hsz : res.body.length < MAX_LOGO_BYTES
          · exact ⟨res, rfl, hro, htype, hsz⟩
          · rw [download_too_large hf hro htype (Nat.not_lt.mp hsz)] at hok
            exact absurd hok (by simp)
        · rw [download_unsupported hf hro (by simpa using htype)] at hok
          exact absurd hok (by simp)
      · rw [download_fetch_failed hf (by simpa using hro)] at hok
        exact absurd hok (by simp)
  · rintro ⟨res, hf, hro, htype, hsz⟩
    rw [download_accepted hf hro htype hsz]

/-- Environment returning one small PNG (uppercase content-type) for every
fetch. -/
def envC5 : Env :=
  { fetch := fun _ =>
      some { ok := true, contentType := some "image/PNG", body := [1, 2, 3], text := "" }
    parseHTML := fun _ => { imgs := [], anchors := [] }
    parseURL := fun _ => none
    resolve := fun _ _ => none }

theorem C5_witness :
    downloadAndValidateImage envC5 "https://x/logo.png" =
      { ok := true, tooLarge := false,
        logo := some { url := "https://x/logo.png", size := 3,
                       contentType := "image/png", data := [1, 2, 3] } } := by
  have h := (C5_download_validator envC5 "https://x/logo.png").2.2.2.2.2
    { ok := true, contentType := some "image/PNG", body := [1, 2, 3], text := "" }
    rfl rfl (by decide) (by decide)
  rw [h]
  decide

/-! ### C9 -/

/-- Environment serving a small image with content-type `image/jpg`. -/
def envC9 : Env :=
  { fetch := fun _ =>
      some { ok := true, contentType := some "image/jpg", body := [7], text := "" }
    parseHTML := fun _ => { imgs := [], anchors := [] }
    parseURL := fun _ => none
    resolve := fun _ _ => none }

/-- C9 counterexample: a validated logo produced from a response with
content-type `image/jpg` carries contentType `image/jpg`, which is neither
`image/jpeg` nor `image/png`, refuting the claim that every ValidatedLogo has
contentType in exactly that two-element set. -/
theorem C9_cex :
    (downloadAndValidateImage envC9 "https://a/logo.jpg").logo =
      some { url := "https://a/logo.jpg", size := 1, contentType := "image/jpg",
             data := [7] } ∧
    ("image/jpg" ≠ "image/jpeg" ∧ "image/jpg" ≠ "image/png") := by
  decide

/-- C9 amended: every logo produced by the downloader carries the full
lowercased content-type header of the image response, which starts with one of
`image/jpeg`, `image/jpg`, `image/png` (it need not be exactly `image/jpeg` or
`image/png`). -/
theorem C9_content_type (env : Env) (imageUrl : String) (l : Logo)
    (h : (downloadAndValidateImage env imageUrl).logo = some l) :
    (strStartsWith l.contentType "image/jpeg" ||
     strStartsWith l.contentType "image/jpg" ||
     strStartsWith l.contentType "image/png") = true ∧
    ∃ res, env.fetch imageUrl = some res ∧
      l.contentType = strToLower (res.contentType.getD "") := by
  cases hf : env.fetch imageUrl with
  | none => rw [download_err hf] at h; exact absurd h (by simp)
  | some res =>
    by_cases hro : res.ok = true
    · by_cases htype : typeOK res = true
      · by_cases hsz : res.body.length < MAX_LOGO_BYTES
        · rw [download_accepted hf hro htype hsz] at h
          simp only [Option.some.injEq] at h
          subst h
          refine ⟨?_, res, rfl, rfl⟩
          simpa [typeOK, Bool.or_assoc] using htype
        · rw [download_too_large hf hro htype (Nat.not_lt.mp hsz)] at h
          exact absurd h (by simp)
      · rw [download_unsupported hf hro (by simpa using htype)] at h
        exact absurd h (by simp)
    · rw [download_fetch_failed hf (by simpa using hro)] at h
      exact absurd h (by simp)

theorem C9_witness :
    (strStartsWith "image/jpg" "image/jpeg" ||
     strStartsWith "image/jpg" "image/jpg" ||
     strStartsWith "image/jpg" "image/png") = true ∧
    ∃ res, envC9.fetch "https://a/logo.jpg" = some res ∧
      "image/jpg" = strToLower (res.contentType.getD "") :=
  C9_content_type envC9 "https://a/logo.jpg"
    { url := "https://a/logo.jpg", size := 1, contentType := "image/jpg",
      data := [7] } (by decide)

end CompanyScraper

namespace CompanyScraper

/-! ### Social classifier helper lemmas -/

theorem getProfile_empty (p : Platform) : getProfile emptySocialProfiles p = none := by
  cases p <;> rfl

theorem socialStep_field (env : Env) (base : URLRec) (found : SocialProfiles)
    (href : String) (absRec u : URLRec) (p : Platform)
    (hh : href ≠ "")
    (hres : env.resolve href base.str = some absRec)
    (hu : env.parseURL absRec.str = some u) :
    getProfile (socialStep env base found href) p =
      updField (getProfile found p) (strToLower u.hostname) (SOCIAL_DOMAINS p)
        absRec.str := by
  simp only [socialStep, if_neg hh, hres, hu]
  cases p <;> rfl

theorem socialStep_keeps (env : Env) (base : URLRec) (found : SocialProfiles)
    (href : String) (p : Platform) (v : String)
    (hv : getProfile found p = some v) :
    getProfile (socialStep env base found href) p = some v := by
  by_cases hh : href = ""
  · simp [socialStep, hh, hv]
  · cases hres : env.resolve href base.str with
    | none => simp [socialStep, hh, hres, hv]
    | some absRec =>
      cases hu : env.parseURL absRec.str with
      | none => simp [socialStep, hh, hres, hu, hv]
      | some u =>
        rw [socialStep_field env base found href absRec u p hh hres hu]
        simp [updField, hv]

theorem foldl_socialStep_keeps (env : Env) (base : URLRec)
    (anchors : List String) (found : SocialProfiles) (p : Platform) (v : String)
    (hv : getProfile found p = some v) :
    getProfile (anchors.foldl (socialStep env base) found) p = some v := by
  induction anchors generalizing found with
  | nil => exact hv
  | cons a rest ih =>
    exact ih (socialStep env base found a) (socialStep_keeps env base found a p v hv)

theorem socialStep_skip (env : Env) (base : URLRec) (found : SocialProfiles)
    (x : String) (hx : x = "" ∨ env.resolve x base.str = none) :
    socialStep env base found x = found := by
  rcases hx with hx | hx
  · simp [socialStep, hx]
  · by_cases he : x = ""
    · simp [socialStep, he]
    · simp [socialStep, he, hx]

/-! ### C6 -/

/-- C6: for an anchor with a non-empty resolvable href, the classifier fills a
still-empty platform field exactly when the lowercased hostname of the
resolved absolute URL matches the fixed domains of the platform (equality or
`.`-suffix); once a field is filled it is never overwritten by later anchors;
and concretely `m.facebook.com` matches the facebook domains while
`notfacebook.com` does not. -/
theorem C6_social_classifier (env : Env) (base : URLRec) (p : Platform) :
    (∀ found href absRec u, getProfile found p = none → href ≠ "" →
      env.resolve href base.str = some absRec →
      env.parseURL absRec.str = some u →
      getProfile (socialStep env base found href) p =
        (if matchesHost (strToLower u.hostname) (SOCIAL_DOMAINS p) = true
         then some absRec.str else none)) ∧
    (∀ (found : SocialProfiles) (anchors : List String) (v : String),
      getProfile found p = some v →
      getProfile (anchors.foldl (socialStep env base) found) p = some v) ∧
    matchesHost "m.facebook.com" (SOCIAL_DOMAINS .facebook) = true ∧
    matchesHost "notfacebook.com" (SOCIAL_DOMAINS .facebook) = false := by
  refine ⟨?_, fun found anchors v hv =>
    foldl_socialStep_keeps env base anchors found p v hv, by decide, by decide⟩
  intro found href absRec u hnone hh hres hu
  rw [socialStep_field env base found href absRec u p hh hres hu]
  by_cases hm : matchesHost (strToLower u.hostname) (SOCIAL_DOMAINS p) = true
  · simp [updField, hnone, hm]
  · simp [updField, hnone, hm, hnone]

def baseC6 : URLRec := { str := "https://acme.example/", hostname := "acme.example" }

def envC6 : Env :=
  { fetch := fun _ => none
    parseHTML := fun _ => { imgs := [], anchors := ["https://m.facebook.com/acme"] }
    parseURL := fun s =>
      if s = "https://m.facebook.com/acme" then
        some { str := s, hostname := "m.facebook.com" }
      else none
    resolve := fun href _ =>
      if href = "https://m.facebook.com/acme" then
        some { str := href, hostname := "m.facebook.com" }
      else none }

theorem C6_witness :
    getProfile (socialStep envC6 baseC6 emptySocialProfiles
      "https://m.facebook.com/acme") .facebook =
      some "https://m.facebook.com/acme" := by
  have h := (C6_social_classifier envC6 baseC6 .facebook).1 emptySocialProfiles
    "https://m.facebook.com/acme"
    { str := "https://m.facebook.com/acme", hostname := "m.facebook.com" }
    { str := "https://m.facebook.com/acme", hostname := "m.facebook.com" }
    rfl (by decide) rfl rfl
  rw [h]
  decide

/-! ### C10 -/

/-- C10: when the own hostname of the base URL matches the domain list of a platform, an
anchor with a non-empty relative href that resolves against the base (hence to
the base hostname) matches that platform, so after any run of skipped
anchors (empty or unresolvable hrefs) the first such anchor fills the
field of the platform with its resolved absolute URL, even though it is plain site
navigation. -/
theorem C10_self_platform_base (env : Env) (base : URLRec) (p : Platform)
    (pre rest : List String) (h : String) (absRec u : URLRec)
    (hbase : matchesHost (strToLower base.hostname) (SOCIAL_DOMAINS p) = true)
    (hpre : ∀ x ∈ pre, x = "" ∨ env.resolve x base.str = none)
    (hh : h ≠ "")
    (hres : env.resolve h base.str = some absRec)
    (hu : env.parseURL absRec.str = some u)
    (hhost : u.hostname = base.hostname) :
    getProfile (extractSocialProfiles env base (pre ++ h :: rest)) p =
      some absRec.str := by
  unfold extractSocialProfiles
  rw [List.foldl_append]
  have hpre2 : pre.foldl (socialStep env base) emptySocialProfiles =
      emptySocialProfiles := by
    induction pre with
    | nil => rfl
    | cons a as ih =>
      rw [List.foldl_cons,
        socialStep_skip env base emptySocialProfiles a (hpre a (List.mem_cons_self a as))]
      exact ih fun y hy => hpre y (List.mem_cons_of_mem a hy)
  rw [hpre2, List.foldl_cons]
  apply foldl_socialStep_keeps
  rw [socialStep_field env base emptySocialProfiles h absRec u p hh hres hu,
    getProfile_empty, hhost]
  simp [updField, hbase]

def baseC10 : URLRec := { str := "https://facebook.com/", hostname := "facebook.com" }

def envC10 : Env :=
  { fetch := fun _ => none
    parseHTML := fun _ => { imgs := [], anchors := ["", "/about", "/contact"] }
    parseURL := fun s =>
      if s = "https://facebook.com/about" then
        some { str := s, hostname := "facebook.com" }
      else none
    resolve := fun href base =>
      if href = "/about" ∧ base = "https://facebook.com/" then
        some { str := "https://facebook.com/about", hostname := "facebook.com" }
      else if href = "/contact" ∧ base = "https://facebook.com/" then
        some { str := "https://facebook.com/contact", hostname := "facebook.com" }
      else none }

theorem C10_witness :
    getProfile (extractSocialProfiles envC10 baseC10 ["", "/about", "/contact"])
      .facebook = some "https://facebook.com/about" :=
  C10_self_platform_base envC10 baseC10 .facebook [""] ["/contact"] "/about"
    { str := "https://facebook.com/about", hostname := "facebook.com" }
    { str := "https://facebook.com/about", hostname := "facebook.com" }
    (by decide)
    (by intro x hx; simp only [List.mem_singleton] at hx; exact Or.inl hx)
    (by decide) rfl rfl rfl

/-! ### C7 -/

/-- C7: a blank or whitespace-only input yields Failure with message `False`
and no socialProfiles field; a non-blank input that fails URL parsing yields
Failure with message `Malformed URL` and no socialProfiles field; and every
failure produced after successful normalisation carries a socialProfiles
object. -/
theorem C7_input_validation (env : Env) (targetUrl : String) :
    (strTrim targetUrl = "" →
      fetchCompanyLogo env targetUrl = { success := false, message := "False" }) ∧
    (strTrim targetUrl ≠ "" → env.parseURL targetUrl = none →
      fetchCompanyLogo env targetUrl =
        { success := false, message := "Malformed URL" }) ∧
    (∀ parsedUrl, strTrim targetUrl ≠ "" →
      env.parseURL targetUrl = some parsedUrl →
      (fetchCompanyLogo env targetUrl).success = false →
      (fetchCompanyLogo env targetUrl).socialProfiles.isSome = true) := by
  refine ⟨fun ht => by simp [fetchCompanyLogo, ht],
    fun ht hp => by simp [fetchCompanyLogo, ht, hp], ?_⟩
  intro parsedUrl ht hp _
  cases hb : pipelineBody env parsedUrl with
  | ok r =>
    have hr : fetchCompanyLogo env targetUrl = r := by
      simp [fetchCompanyLogo, ht, hp, hb]
    rw [hr]
    exact (pipelineBody_ok hb).2
  | error e =>
    have hr : fetchCompanyLogo env targetUrl =
        { success := false, message := "could not identify logo",
          socialProfiles := some emptySocialProfiles } := by
      simp [fetchCompanyLogo, ht, hp, hb]
    rw [hr]
    rfl

theorem C7_witness :
    fetchCompanyLogo envErr "   " = { success := false, message := "False" } :=
  (C7_input_validation envErr "   ").1 (by decide)

/-! ### C8 -/

/-- C8: the candidate sequence handed to the validation loop is a permutation
of the discovery-order sequence, it is sorted by descending score, and the
sort is stable: for every score value, the candidates with that score appear
in their original discovery order (filtering by any score value commutes with
the sort). -/
theorem C8_sort_stable_desc (l : List Candidate) :
    (sortCandidates l).Perm l ∧
    List.Pairwise (fun a b => b.score ≤ a.score) (sortCandidates l) ∧
    ∀ k, (sortCandidates l).filter (fun c => c.score == k) =
      l.filter (fun c => c.score == k) := by
  have htrans : ∀ a b c : Candidate,
      (fun a b : Candidate => decide (b.score ≤ a.score)) a b = true →
      (fun a b : Candidate => decide (b.score ≤ a.score)) b c = true →
      (fun a b : Candidate => decide (b.score ≤ a.score)) a c = true := by
    intro a b c hab hbc
    simp only [decide_eq_true_eq] at *
    omega
  have htotal : ∀ a b : Candidate,
      ((fun a b : Candidate => decide (b.score ≤ a.score)) a b ||
       (fun a b : Candidate => decide (b.score ≤ a.score)) b a) = true := by
    intro a b
    simp only [Bool.or_eq_true, decide_eq_true_eq]
    omega
  refine ⟨List.mergeSort_perm l _, ?_, ?_⟩
  · exact (List.sorted_mergeSort htrans htotal l).imp fun h => by simpa using h
  · intro k
    set p : Candidate → Bool := fun c => c.score == k with hpdef
    have hsub : List.Sublist (l.filter p) l := List.filter_sublist l
    have hpair : List.Pairwise
        (fun a b : Candidate =>
          (fun a b : Candidate => decide (b.score ≤ a.score)) a b = true)
        (l.filter p) := by
      apply List.pairwise_of_forall_mem_list
      intro a ha b hb
      have ha2 := (List.mem_filter.mp ha).2
      have hb2 := (List.mem_filter.mp hb).2
      simp only [hpdef, beq_iff_eq] at ha2 hb2
      simp [ha2, hb2]
    have hsub2 : List.Sublist (l.filter p) (sortCandidates l) :=
      List.sublist_mergeSort htrans htotal hpair hsub
    have hfil : (l.filter p).filter p = l.filter p := by
      rw [List.filter_filter]
      simp
    have hlen : ((sortCandidates l).filter p).length = (l.filter p).length :=
      ((List.mergeSort_perm l _).filter p).length_eq
    have hsub3 : List.Sublist (l.filter p) ((sortCandidates l).filter p) := by
      have hstep := List.Sublist.filter p hsub2
      rwa [hfil] at hstep
    exact (hsub3.eq_of_length hlen.symm).symm

end CompanyScraper
